import Mathlib

/-!
Shallow embedding of `ua_gui_manager.py` (Upload Assistant GUI Manager).

The filesystem is modelled as an explicit record of total functions, so that
every operation of the program becomes a pure Lean function of the filesystem
model and its other inputs.  `Except Unit` models a raised `PermissionError`
(or, for list indexing, `IndexError`); `Option` models a fallible read.

Python string primitives (`lower`, `strip`, `split`, `in`, comparison) are
re-implemented on `List Char` so that every definition evaluates by kernel
reduction; Python compares strings lexicographically by code point, which is
exactly the `List Char` lexicographic order on `Char` (ordered by code point).
-/

namespace UAGui

/-- Model of the parts of the OS interface the program touches.
`listdir` returns the directory entries or a `PermissionError`;
`isdir` / `isfile` / `pathExists` are the `os.path` predicates (they do
not raise); `readFile` is `open(p).read()`, `none` meaning any exception. -/
structure FS where
  listdir : String → Except Unit (List String)
  isdir : String → Bool
  isfile : String → Bool
  pathExists : String → Bool
  readFile : String → Option String

/-- Whether `needle` occurs at the start of `hay`. -/
def startsWithChars : List Char → List Char → Bool
  | [], _ => true
  | _ :: _, [] => false
  | a :: as, b :: bs => a = b && startsWithChars as bs

/-- Whether `needle` occurs contiguously anywhere inside `hay`. -/
def hasSub (needle : List Char) : List Char → Bool
  | [] => needle.isEmpty
  | b :: bs => startsWithChars needle (b :: bs) || hasSub needle bs

/-- Python's substring test `needle in hay`. -/
def pyIn (needle hay : String) : Bool :=
  hasSub needle.toList hay.toList

/-- Python's `s.startswith(p)`. -/
def pyStartsWith (s p : String) : Bool :=
  startsWithChars p.toList s.toList

/-- Python's `s.endswith(p)`. -/
def pyEndsWith (s p : String) : Bool :=
  startsWithChars p.toList.reverse s.toList.reverse

/-- Python's `s.lower()` (character-wise, ASCII range). -/
def pyLower (s : String) : String :=
  String.mk (s.toList.map Char.toLower)

/-- Python's `s.strip()`: whitespace removed from both ends. -/
def pyTrim (s : String) : String :=
  String.mk (((s.toList.dropWhile Char.isWhitespace).reverse.dropWhile
    Char.isWhitespace).reverse)

/-- Split a character list at every occurrence of `c` (Python `s.split(c)`:
the empty input yields one empty field). -/
def splitOnChar (c : Char) : List Char → List (List Char)
  | [] => [[]]
  | a :: as =>
    match splitOnChar c as with
    | [] => [[a]]
    | h :: t => if a = c then [] :: h :: t else (a :: h) :: t

/-- Python's `s.split('\n')`. -/
def pySplitNl (s : String) : List String :=
  (splitOnChar '\n' s.toList).map String.mk

/-- Python string comparison `a <= b`: code-point lexicographic, i.e. the
lexicographic order on the character lists. -/
def strLe (a b : String) : Prop :=
  a.toList ≤ b.toList

instance : DecidableRel strLe :=
  fun a b => inferInstanceAs (Decidable (a.toList ≤ b.toList))

instance : IsTotal String strLe :=
  ⟨fun a b => le_total a.toList b.toList⟩

instance : IsTrans String strLe :=
  ⟨fun _ _ _ h h' => le_trans h h'⟩

/-- Python's comparison on `(name, path)` tuples as used by `items.sort()` in
`populate_tree`: tuples compare by first component first; the second component
is `os.path.join(path, name)`, a strictly monotone function of the name, so
the tuple order coincides with the order on the first component. -/
def itemLe (x y : String × String) : Prop :=
  strLe x.1 y.1

instance : DecidableRel itemLe :=
  fun x y => inferInstanceAs (Decidable (strLe x.1 y.1))

instance : IsTotal (String × String) itemLe :=
  ⟨fun a b => le_total a.1.toList b.1.toList⟩

instance : IsTrans (String × String) itemLe :=
  ⟨fun _ _ _ h h' => le_trans (α := List Char) h h'⟩

/-- `os.path.join a b` for POSIX paths, two arguments. -/
def osJoin (a b : String) : String :=
  if pyStartsWith b "/" then b
  else if a = "" ∨ pyEndsWith a "/" then a ++ b
  else a ++ "/" ++ b

/-- `os.path.basename p`: the part of `p` after the last slash. -/
def basename (p : String) : String :=
  String.mk ((p.toList.reverse.takeWhile (fun c => c ≠ '/')).reverse)

/-- `os.path.dirname p`: everything before the last slash, with trailing
slashes stripped unless the head consists only of slashes. -/
def dirname (p : String) : String :=
  let rest := p.toList.reverse.dropWhile (fun c => c ≠ '/')
  if rest.isEmpty then ""
  else
    let head := rest.reverse
    if head.all (fun c => c = '/') then String.mk head
    else String.mk ((rest.dropWhile (fun c => c = '/')).reverse)

/-- The item enumeration of `FilterPanel.populate_tree` (source lines
138-146): collect `(name, joined path)` for each entry of `os.listdir path`
that is a directory, then `items.sort()` (a stable sort; ties in the name
determine the whole tuple).  A `PermissionError` from `listdir` is caught by
the surrounding handler and yields no items. -/
def listChildren (fs : FS) (path : String) : List (String × String) :=
  match fs.listdir path with
  | .error _ => []
  | .ok entries =>
    let items := (entries.filter (fun item => fs.isdir (osJoin path item))).map
      (fun item => (item, osJoin path item))
    List.insertionSort itemLe items

/-- The per-child probe of `FilterPanel.populate_tree` (source lines 148-153):
`any(os.path.isdir(os.path.join(item_path, x)) for x in os.listdir(item_path))`,
with a `PermissionError` caught and treated as "no children". -/
def probeHasChildren (fs : FS) (path : String) : Bool :=
  match fs.listdir path with
  | .error _ => false
  | .ok entries => entries.any (fun x => fs.isdir (osJoin path x))

/-- A `ttk.Treeview` node as the program uses it: its displayed `text`, its
`values` tuple (the program stores the absolute path as the single value of a
real node; a placeholder has no values), and its child nodes in order. -/
structure TNode where
  text : String
  vals : List String
  children : List TNode

/-- The placeholder child inserted under a node that probes as having
subdirectories: `self.dir_tree.insert(node, "end", text="Loading...")`. -/
def loadingNode : TNode :=
  { text := "Loading...", vals := [], children := [] }

/-- The node construction of `FilterPanel.populate_tree` (source lines
146-153): each listed child becomes a node carrying its path as its single
value, with one placeholder child exactly when the probe reports
subdirectories. -/
def populate_tree (fs : FS) (path : String) : List TNode :=
  (listChildren fs path).map (fun it =>
    { text := it.1, vals := [it.2],
      children := if probeHasChildren fs it.2 then [loadingNode] else [] })

/-- The expansion step of `FilterPanel.on_dir_select` (source lines 157-171)
on the selected node: if the node has a values tuple and its children are
exactly one node whose text is `"Loading..."`, that child is deleted and the
node is repopulated from `populate_tree`; otherwise nothing changes. -/
def expandNode (fs : FS) (n : TNode) : TNode :=
  match n.vals with
  | [] => n
  | selected_path :: _ =>
    match n.children with
    | [c] =>
      if c.text = "Loading..."
      then { n with children := populate_tree fs selected_path }
      else n
    | _ => n

/-- Python list subscription `xs[i]` for an `int` index: non-negative indices
count from the front, negative indices from the back, anything out of range
raises `IndexError` (the `.error` case). -/
def pyGetItem (xs : List String) (i : Int) : Except Unit String :=
  let j : Int := if i < 0 then i + xs.length else i
  if 0 ≤ j then
    match xs.get? j.toNat with
    | some v => .ok v
    | none => .error ()
  else .error ()

/-- `FilePanel.get_selected_file` (source lines 287-294): with `curselection`
as the selection tuple, return the entry of `current_files` at the first
selected index when that index is `< len(current_files)`, else `None`.
Subscription follows Python semantics (`pyGetItem`). -/
def get_selected_file (current_files : List String) (curselection : List Int) :
    Except Unit (Option String) :=
  match curselection with
  | [] => .ok none
  | index :: _ =>
    if index < (current_files.length : Int) then
      (pyGetItem current_files index).map some
    else .ok none

/-- `FilePanel.load_missing_torrents` (source lines 253-285), returning the
pair (listbox labels, `current_files`) that the call appends (the caller has
just cleared both).  A missing logs directory shows a warning and contributes
nothing; a failure listing it is caught by the outer handler; a failure
reading one log file skips that file. -/
def load_missing_torrents (fs : FS) (logs_dir : String) :
    List String × List String :=
  if fs.pathExists logs_dir = false then ([], [])
  else
    match fs.listdir logs_dir with
    | .error _ => ([], [])
    | .ok entries =>
      let log_files := entries.filter (fun f => pyEndsWith f ".log")
      let missing_files := log_files.foldl (fun acc log_file =>
        match fs.readFile (osJoin logs_dir log_file) with
        | none => acc
        | some content =>
          (pySplitNl content).foldl (fun acc2 line =>
            if pyIn "missing" (pyLower line) && pyIn "torrent" (pyLower line)
            then acc2 ++ [pyTrim line] else acc2) acc) []
      (missing_files.map (fun missing => "[MISSING] " ++ missing),
       missing_files)

/-- `FilePanel.update_files` (source lines 225-251), returning the pair
(listbox labels, `current_files`) after the refresh.  `logs_dir` is the
configured `PATHS/logs_dir` value read by `load_missing_torrents`.  A
non-existent directory returns with both lists cleared; a `PermissionError`
from `os.listdir` is caught (error dialog) leaving both lists empty. -/
def update_files (fs : FS) (logs_dir directory : String)
    (show_missing_only : Bool) : List String × List String :=
  if fs.pathExists directory = false then ([], [])
  else if show_missing_only then load_missing_torrents fs logs_dir
  else
    match fs.listdir directory with
    | .error _ => ([], [])
    | .ok entries =>
      let files := entries.filter (fun item =>
        fs.isfile (osJoin directory item) || fs.isdir (osJoin directory item))
      let files := List.insertionSort strLe files
      (files, files.map (fun file => osJoin directory file))

/-- A value of the duck-typed argument dictionary passed to
`execute_upload_assistant`: either a `bool` (from a `BooleanVar`) or a
string (from an entry field). -/
inductive ArgVal where
  | b (v : Bool)
  | s (v : String)
deriving DecidableEq

/-- Python truthiness of an `ArgVal` (`if value:`). -/
def ArgVal.truthy : ArgVal → Bool
  | .b v => v
  | .s v => v ≠ ""

/-- An argument dictionary in its insertion order: Python `dict` iteration
(`args.items()`) enumerates keys in insertion order. -/
abbrev ArgBag := List (String × ArgVal)

/-- The command construction of `FilePanel.execute_upload_assistant` (source
lines 344-356): `cmd = [ua_path, file_path]`, then for each `(key, value)` in
the dictionary's iteration order, skip falsy values, append `--key` for a
true boolean, and append `--key value` for a non-empty string. -/
def buildCommand (ua_path file_path : String) (args : ArgBag) : List String :=
  args.foldl (fun cmd kv =>
    if kv.2.truthy then
      match kv.2 with
      | .b v => if v then cmd ++ ["--" ++ kv.1] else cmd
      | .s v => cmd ++ ["--" ++ kv.1, v]
    else cmd)
    [ua_path, file_path]

/-- Observable outcome of `FilePanel.rename_file` (source lines 296-315). -/
inductive RenameAction where
  | warned
  | cancelled
  | attempted (oldPath newPath : String)
  | indexCrash
deriving DecidableEq

/-- `FilePanel.rename_file` (source lines 296-315): resolve the selection
(`warned` when it is `None` or falsy), ask the operator for a new name
(`userInput`, `none` when the dialog is cancelled), and when the reply is
non-empty and differs from the basename, attempt
`os.rename(old_path, os.path.join(os.path.dirname(old_path), new_name))`. -/
def rename_file (current_files : List String) (curselection : List Int)
    (userInput : Option String) : RenameAction :=
  match get_selected_file current_files curselection with
  | .error _ => .indexCrash
  | .ok none => .warned
  | .ok (some selected_file) =>
    if selected_file = "" then .warned
    else
      let old_name := basename selected_file
      match userInput with
      | none => .cancelled
      | some new_name =>
        if new_name ≠ "" ∧ new_name ≠ old_name then
          .attempted selected_file (osJoin (dirname selected_file) new_name)
        else .cancelled

/-- Observable outcome of `FilePanel.launch_upload_assistant` (source lines
317-328). -/
inductive LaunchAction where
  | warned
  | cancelled
  | launched (cmd : List String)
  | indexCrash
deriving DecidableEq

/-- `FilePanel.launch_upload_assistant` (source lines 317-328): resolve the
selection (`warned` when `None` or falsy), open the arguments dialog
(`dialogResult` is its `result`, `none` when cancelled), and when the result
dictionary is truthy build and launch the command via
`execute_upload_assistant`. -/
def launch_upload_assistant (ua_path : String) (current_files : List String)
    (curselection : List Int) (dialogResult : Option ArgBag) : LaunchAction :=
  match get_selected_file current_files curselection with
  | .error _ => .indexCrash
  | .ok none => .warned
  | .ok (some selected_file) =>
    if selected_file = "" then .warned
    else
      match dialogResult with
      | none => .cancelled
      | some args =>
        if args = ([] : List (String × ArgVal)) then .cancelled
        else .launched (buildCommand ua_path selected_file args)

/-- Concrete filesystem: `/data/torrents` holds the subdirectories `B`, `a`,
`C` and one plain file; everything else is inaccessible. -/
def demoTreeFS : FS where
  listdir := fun p => if p = "/data/torrents" then .ok ["B", "a", "C", "notes.txt"] else .error ()
  isdir := fun p =>
    p = "/data/torrents" || p = "/data/torrents/B" || p = "/data/torrents/a" ||
      p = "/data/torrents/C"
  isfile := fun p => p = "/data/torrents/notes.txt"
  pathExists := fun p => p = "/data/torrents"
  readFile := fun _ => none

/-- Concrete filesystem: every directory raises `PermissionError` on
enumeration although the paths exist. -/
def demoDeniedFS : FS where
  listdir := fun _ => .error ()
  isdir := fun _ => false
  isfile := fun _ => false
  pathExists := fun _ => true
  readFile := fun _ => none

/-- Concrete filesystem: a logs directory `/logs` with one `.log` file of
three lines and one non-log file; the directory `/a` exists, `/b` does not. -/
def demoLogsFS : FS where
  listdir := fun p => if p = "/logs" then .ok ["cross.log", "readme.txt"] else .error ()
  isdir := fun p => p = "/logs" || p = "/a"
  isfile := fun p => p = "/logs/cross.log" || p = "/logs/readme.txt"
  pathExists := fun p => p = "/logs" || p = "/a"
  readFile := fun p =>
    if p = "/logs/cross.log"
    then some "ok\nMissing Torrent: foo.mkv\ntorrentmissingbar"
    else none

/-! ## Helper lemmas -/

/-- The flags contributed by a single `(key, value)` pair of the dictionary
iterated by `execute_upload_assistant`. -/
def emitOne (kv : String × ArgVal) : List String :=
  match kv.2 with
  | .b v => if v then ["--" ++ kv.1] else []
  | .s v => if v = "" then [] else ["--" ++ kv.1, v]

theorem buildCommand_step (cmd : List String) (kv : String × ArgVal) :
    (if kv.2.truthy then
      match kv.2 with
      | .b v => if v then cmd ++ ["--" ++ kv.1] else cmd
      | .s v => cmd ++ ["--" ++ kv.1, v]
    else cmd) = cmd ++ emitOne kv := by
  obtain ⟨k, v⟩ := kv
  cases v with
  | b v => cases v <;> simp [ArgVal.truthy, emitOne]
  | s v =>
    by_cases h : v = "" <;> simp [ArgVal.truthy, emitOne, h]

theorem buildCommand_eq_flatMap (ua_path file_path : String) (args : ArgBag) :
    buildCommand ua_path file_path args = [ua_path, file_path] ++ args.flatMap emitOne := by
  suffices h : ∀ (l : ArgBag) (acc : List String),
      l.foldl (fun cmd kv =>
        if kv.2.truthy then
          match kv.2 with
          | .b v => if v then cmd ++ ["--" ++ kv.1] else cmd
          | .s v => cmd ++ ["--" ++ kv.1, v]
        else cmd) acc = acc ++ l.flatMap emitOne by
    exact h args [ua_path, file_path]
  intro l
  induction l with
  | nil => intro acc; simp
  | cons kv t ih =>
    intro acc
    simp only [List.foldl_cons]
    rw [buildCommand_step, ih, List.flatMap_cons, List.append_assoc]

/-- The predicate of the line loop in `load_missing_torrents`:
`'missing' in line.lower() and 'torrent' in line.lower()`. -/
def missingLine (line : String) : Bool :=
  pyIn "missing" (pyLower line) && pyIn "torrent" (pyLower line)

theorem missing_inner_foldl (p : String → Bool) (lines : List String) :
    ∀ acc : List String,
      lines.foldl (fun acc2 line => if p line then acc2 ++ [pyTrim line] else acc2) acc
        = acc ++ (lines.filter p).map pyTrim := by
  induction lines with
  | nil => intro acc; simp
  | cons line t ih =>
    intro acc
    by_cases h : p line = true
    · simp [List.filter_cons, h, ih, List.append_assoc]
    · simp [List.filter_cons, h, ih]

/-- The lines contributed by a single log file in `load_missing_torrents`:
nothing when reading it fails, otherwise its matching lines, trimmed. -/
def fileMissingLines (fs : FS) (logs_dir lf : String) : List String :=
  match fs.readFile (osJoin logs_dir lf) with
  | none => []
  | some content => ((pySplitNl content).filter missingLine).map pyTrim

theorem missing_outer_foldl (fs : FS) (logs_dir : String) (log_files : List String) :
    ∀ acc : List String,
      log_files.foldl (fun acc log_file =>
        match fs.readFile (osJoin logs_dir log_file) with
        | none => acc
        | some content =>
          (pySplitNl content).foldl (fun acc2 line =>
            if pyIn "missing" (pyLower line) && pyIn "torrent" (pyLower line)
            then acc2 ++ [pyTrim line] else acc2) acc) acc
      = acc ++ log_files.flatMap (fileMissingLines fs logs_dir) := by
  induction log_files with
  | nil => intro acc; simp
  | cons lf t ih =>
    intro acc
    simp only [List.foldl_cons, List.flatMap_cons]
    cases h : fs.readFile (osJoin logs_dir lf) with
    | none => rw [ih, fileMissingLines, h]; simp
    | some content =>
      simp only []
      rw [missing_inner_foldl, ih, fileMissingLines, h]
      simp only [List.append_assoc]
      rfl

/-- The labels-and-paths pair produced by `load_missing_torrents` always has
the shape `(x.map ("[MISSING] " ++ ·), x)`. -/
theorem load_missing_shape (fs : FS) (logs_dir : String) :
    ∃ x : List String, load_missing_torrents fs logs_dir =
      (x.map (fun missing => "[MISSING] " ++ missing), x) := by
  unfold load_missing_torrents
  by_cases h : fs.pathExists logs_dir = false
  · exact ⟨[], by rw [if_pos h]; rfl⟩
  · rw [if_neg h]
    cases hl : fs.listdir logs_dir with
    | error e => exact ⟨[], rfl⟩
    | ok entries => exact ⟨_, rfl⟩

/-! ## C1 -/

/-- C1 (amended): under `filter.missingOnly == true` the listing depends only
on the configured logs location for any two **existing** directory arguments:
`update_files` returns the same result for both.  (A non-existent directory
argument short-circuits to an empty listing before the filter branch.) -/
theorem C1_missing_listing_same_for_existing_directories
    (fs : FS) (logs_dir d1 d2 : String)
    (h1 : fs.pathExists d1 = true) (h2 : fs.pathExists d2 = true) :
    update_files fs logs_dir d1 true = update_files fs logs_dir d2 true := by
  unfold update_files
  rw [h1, h2]
  simp

/-- Witness for C1: two concrete existing directories give the same
missing-only listing. -/
theorem C1_witness :
    demoLogsFS.pathExists "/a" = true ∧ demoLogsFS.pathExists "/logs" = true ∧
      update_files demoLogsFS "/logs" "/a" true =
        update_files demoLogsFS "/logs" "/logs" true :=
  ⟨by decide, by decide,
    C1_missing_listing_same_for_existing_directories demoLogsFS "/logs" "/a" "/logs"
      (by decide) (by decide)⟩

/-- C1 as stated is false: with fixed log contents, the missing-only listing
for the existing directory `/a` differs from the one for the non-existent
directory `/b` (the latter is empty), so the result does depend on the
directory argument. -/
theorem C1_counterexample :
    update_files demoLogsFS "/logs" "/a" true ≠
      update_files demoLogsFS "/logs" "/b" true := by
  decide

/-! ## C2 -/

/-- C2 as stated is false: for the listing `["entry"]` and index `-1` the
selection resolution does not return `None`; Python's negative indexing makes
`current_files[-1]` the last entry. -/
theorem C2_counterexample :
    get_selected_file ["entry"] [-1] = Except.ok (some "entry") ∧
      get_selected_file ["entry"] [-1] ≠ Except.ok none := by
  refine ⟨rfl, fun h => ?_⟩
  rw [show get_selected_file ["entry"] [-1] = Except.ok (some "entry") from rfl] at h
  exact Option.some_ne_none _ (Except.ok.inj h)

/-- C2 (amended): the selection resolution returns `None` when no selection
exists and when the index is `≥ length(listing)`; for `0 ≤ index < length` it
returns the entry at that index.  (A negative index, which the selection
widget never produces, follows Python's from-the-back indexing instead of
returning `None`.) -/
theorem C2_resolve_amended (files : List String) (rest : List Int) (i : Int) :
    get_selected_file files [] = Except.ok none
    ∧ ((files.length : Int) ≤ i →
        get_selected_file files (i :: rest) = Except.ok none)
    ∧ (0 ≤ i → i < (files.length : Int) →
        ∃ v, files.get? i.toNat = some v ∧
          get_selected_file files (i :: rest) = Except.ok (some v)) := by
  refine ⟨rfl, ?_, ?_⟩
  · intro h
    rw [get_selected_file, if_neg (not_lt.mpr h)]
  · intro h0 hlt
    have hnat : i.toNat < files.length := by omega
    refine ⟨files.get ⟨i.toNat, hnat⟩, List.get?_eq_get hnat, ?_⟩
    rw [get_selected_file, if_pos hlt]
    unfold pyGetItem
    rw [if_neg (not_lt.mpr h0), if_pos h0, List.get?_eq_get hnat]
    rfl

/-- Witness for C2 (amended): concrete in-range resolution. -/
theorem C2_witness :
    (0 : Int) ≤ 1 ∧ (1 : Int) < ((["x", "y"] : List String).length : Int) ∧
      ∃ v, (["x", "y"] : List String).get? (1 : Int).toNat = some v ∧
        get_selected_file ["x", "y"] [1] = Except.ok (some v) :=
  ⟨by decide, by decide,
    (C2_resolve_amended ["x", "y"] [] 1).2.2 (by decide) (by decide)⟩

/-! ## C3 -/

/-- C3: the code contradicts the specified `UnsupportedOperation` behaviour.
With the missing-only listing of the demo logs selected at index 0 (a
`Missing` entry, the raw log line `"Missing Torrent: foo.mkv"`), `rename_file`
does not reject the operation: it proceeds to attempt
`os.rename("Missing Torrent: foo.mkv", "renamed.mkv")`; and
`launch_upload_assistant` actually builds and launches a process whose target
path is the log line.  Neither emits an "operation not supported for this
entry type" signal. -/
theorem C3_missing_entry_operations_not_rejected :
    rename_file (update_files demoLogsFS "/logs" "/a" true).2 [0]
        (some "renamed.mkv") =
      RenameAction.attempted "Missing Torrent: foo.mkv" "renamed.mkv"
    ∧ launch_upload_assistant "upload-assistant"
        (update_files demoLogsFS "/logs" "/a" true).2 [0]
        (some [("tmdb", .s "123"), ("freeleech", .b true), ("tag", .s "")]) =
      LaunchAction.launched
        ["upload-assistant", "Missing Torrent: foo.mkv", "--tmdb", "123", "--freeleech"] :=
  ⟨by decide, by decide⟩

/-! ## C4 -/

/-- C4 as stated is false: these two bags contain the same key-to-value
mapping (they are permutations of each other with distinct keys, and agree on
every lookup) but `execute_upload_assistant` emits their flags in each bag's
insertion order, producing different—not byte-identical—sequences. -/
theorem C4_counterexample :
    List.Perm [("tmdb", ArgVal.s "1"), ("imdb", ArgVal.s "2")]
      [("imdb", ArgVal.s "2"), ("tmdb", ArgVal.s "1")]
    ∧ List.lookup "tmdb" [("tmdb", ArgVal.s "1"), ("imdb", ArgVal.s "2")] =
        List.lookup "tmdb" [("imdb", ArgVal.s "2"), ("tmdb", ArgVal.s "1")]
    ∧ List.lookup "imdb" [("tmdb", ArgVal.s "1"), ("imdb", ArgVal.s "2")] =
        List.lookup "imdb" [("imdb", ArgVal.s "2"), ("tmdb", ArgVal.s "1")]
    ∧ buildCommand "ua" "file" [("tmdb", ArgVal.s "1"), ("imdb", ArgVal.s "2")] ≠
        buildCommand "ua" "file" [("imdb", ArgVal.s "2"), ("tmdb", ArgVal.s "1")] :=
  ⟨List.Perm.swap _ _ _, by decide, by decide, by decide⟩

/-- C4 (amended): command building emits flags in the argument bag's
insertion (iteration) order, not in a fixed declared key order; two bags with
the same key-to-value mapping but different insertion orders produce flag
sequences that are permutations of each other, and byte-identical sequences
are guaranteed only for identical insertion orders. -/
theorem C4_flags_permutation (ua file : String) (b1 b2 : ArgBag)
    (h : b1.Perm b2) :
    (buildCommand ua file b1).Perm (buildCommand ua file b2) := by
  rw [buildCommand_eq_flatMap, buildCommand_eq_flatMap]
  exact (List.Perm.refl [ua, file]).append (h.flatMap_right emitOne)

/-- Witness for C4 (amended): a concrete pair of reordered bags. -/
theorem C4_witness :
    List.Perm [("tmdb", ArgVal.s "7"), ("daily", ArgVal.b true)]
      [("daily", ArgVal.b true), ("tmdb", ArgVal.s "7")]
    ∧ (buildCommand "ua" "f" [("tmdb", ArgVal.s "7"), ("daily", ArgVal.b true)]).Perm
        (buildCommand "ua" "f" [("daily", ArgVal.b true), ("tmdb", ArgVal.s "7")]) :=
  ⟨List.Perm.swap _ _ _,
    C4_flags_permutation "ua" "f" _ _ (List.Perm.swap _ _ _)⟩

/-! ## C5 -/

/-- A string value that Python's `strip` leaves unchanged (the dialog strips
all string values before putting them in the bag). -/
def trimmedVal : ArgVal → Prop
  | .b _ => True
  | .s v => pyTrim v = v

/-- The flag emission exactly as claim C5 words it: `--key` for a true
boolean, `--key value` for a non-empty trimmed string, nothing otherwise. -/
def specFlag (kv : String × ArgVal) : List String :=
  match kv.2 with
  | .b true => ["--" ++ kv.1]
  | .b false => []
  | .s v => if pyTrim v = v ∧ v ≠ "" then ["--" ++ kv.1, v] else []

theorem emitOne_eq_specFlag (kv : String × ArgVal) (h : trimmedVal kv.2) :
    emitOne kv = specFlag kv := by
  obtain ⟨k, v⟩ := kv
  cases v with
  | b v => cases v <;> rfl
  | s v =>
    by_cases hv : v = ""
    · simp [emitOne, specFlag, hv]
    · simp only [trimmedVal] at h
      simp [emitOne, specFlag, hv, h]

/-- C5: command building yields the executable, the positional target path,
then per key (in iteration order) `--key` for boolean true, `--key value` for
a non-empty trimmed string, and nothing for boolean false or the empty
string; an all-empty/false bag yields only executable and target, and the
scenario bag `tmdb="123", freeleech=true, tag=""` yields exactly
`--tmdb 123 --freeleech`. -/
theorem C5_buildCommand_flags (ua file : String) (bag : ArgBag) :
    ((∀ kv ∈ bag, trimmedVal kv.2) →
      buildCommand ua file bag = [ua, file] ++ bag.flatMap specFlag)
    ∧ ((∀ kv ∈ bag, kv.2 = ArgVal.b false ∨ kv.2 = ArgVal.s "") →
      buildCommand ua file bag = [ua, file])
    ∧ buildCommand "ua" "f" [("tmdb", ArgVal.s "123"), ("freeleech", ArgVal.b true), ("tag", ArgVal.s "")]
        = ["ua", "f", "--tmdb", "123", "--freeleech"] := by
  refine ⟨?_, ?_, by decide⟩
  · intro h
    rw [buildCommand_eq_flatMap]
    exact congrArg _ (List.flatMap_congr (fun kv hkv => emitOne_eq_specFlag kv (h kv hkv)))
  · intro h
    rw [buildCommand_eq_flatMap]
    have : bag.flatMap emitOne = [] := by
      induction bag with
      | nil => rfl
      | cons kv t ih =>
        rw [List.flatMap_cons, ih (fun x hx => h x (List.mem_cons_of_mem kv hx))]
        rcases h kv (List.mem_cons_self kv t) with hb | hs
        · obtain ⟨k, v⟩ := kv
          cases hb
          rfl
        · obtain ⟨k, v⟩ := kv
          cases hs
          rfl
    rw [this, List.append_nil]

/-- Witness for C5: the general flag description applied to a concrete
trimmed bag, and the all-defaults round trip at a concrete bag. -/
theorem C5_witness :
    (∀ kv ∈ ([("tmdb", ArgVal.s "9"), ("daily", ArgVal.b false)] : ArgBag),
      trimmedVal kv.2) ∧
    buildCommand "x" "t" [("tmdb", ArgVal.s "9"), ("daily", ArgVal.b false)] =
      ["x", "t"] ++ ([("tmdb", ArgVal.s "9"), ("daily", ArgVal.b false)] : ArgBag).flatMap specFlag := by
  have htr : ∀ kv ∈ ([("tmdb", ArgVal.s "9"), ("daily", ArgVal.b false)] : ArgBag),
      trimmedVal kv.2 := by
    intro kv hkv
    rcases List.mem_cons.mp hkv with rfl | h2
    · show pyTrim "9" = "9"
      decide
    · rcases List.mem_cons.mp h2 with rfl | h3
      · trivial
      · cases h3
  exact ⟨htr, (C5_buildCommand_flags "x" "t" _).1 htr⟩

/-! ## C6 -/

/-- C6: for every directory, the child listing contains only entries whose
joined path is a directory, its names are sorted by Python's case-sensitive
code-point order, it is stable across repeated calls on an unchanged
filesystem, a permission failure yields the empty sequence, and the concrete
scenario `B`, `a`, `C` lists as `["B", "C", "a"]`. -/
theorem C6_listChildren_sorted_dirs_only (fs : FS) (d : String) :
    List.Sorted strLe ((listChildren fs d).map Prod.fst)
    ∧ (∀ it ∈ listChildren fs d, fs.isdir it.2 = true)
    ∧ (fs.listdir d = Except.error () → listChildren fs d = [])
    ∧ (∀ fs2 : FS, fs = fs2 → listChildren fs d = listChildren fs2 d)
    ∧ listChildren demoTreeFS "/data/torrents" =
        [("B", "/data/torrents/B"), ("C", "/data/torrents/C"), ("a", "/data/torrents/a")] := by
  refine ⟨?_, ?_, ?_, fun fs2 h => by rw [h], by decide⟩
  · unfold listChildren
    cases hl : fs.listdir d with
    | error e => simp
    | ok entries =>
      simp only []
      exact List.Pairwise.map Prod.fst (fun a b hab => hab)
        (List.sorted_insertionSort itemLe _)
  · intro it hit
    unfold listChildren at hit
    cases hl : fs.listdir d with
    | error e =>
      rw [hl] at hit
      simp only [] at hit
      exact absurd hit (List.not_mem_nil it)
    | ok entries =>
      rw [hl] at hit
      simp only [] at hit
      rw [List.mem_insertionSort] at hit
      obtain ⟨item, hmem, rfl⟩ := List.mem_map.mp hit
      exact (List.mem_filter.mp hmem).2
  · intro he
    unfold listChildren
    rw [he]

/-- Witness for C6: the permission-denied and the stability hypotheses
discharged at a concrete filesystem. -/
theorem C6_witness :
    listChildren demoDeniedFS "/x" = [] ∧
      listChildren demoDeniedFS "/x" = listChildren demoDeniedFS "/x" :=
  ⟨(C6_listChildren_sorted_dirs_only demoDeniedFS "/x").2.2.1 rfl,
    (C6_listChildren_sorted_dirs_only demoDeniedFS "/x").2.2.2.1 demoDeniedFS rfl⟩

/-! ## C7 -/

/-- C7: for every node, the child-existence probe is false exactly when the
child listing is empty (in particular both treat a permission failure as
"no children"). -/
theorem C7_probe_agrees_with_listing (fs : FS) (p : String) :
    probeHasChildren fs p = !(listChildren fs p).isEmpty := by
  have hsort : ∀ M : List (String × String),
      (List.insertionSort itemLe M).isEmpty = M.isEmpty := by
    intro M
    rw [Bool.eq_iff_iff]
    simp only [List.isEmpty_iff, ← List.length_eq_zero, List.length_insertionSort]
  unfold probeHasChildren listChildren
  cases hl : fs.listdir p with
  | error e => rfl
  | ok entries =>
    simp only []
    rw [hsort, Bool.eq_iff_iff]
    simp only [List.any_eq_true, Bool.not_eq_true', List.isEmpty_eq_false,
      ne_eq, List.map_eq_nil_iff, List.filter_eq_nil_iff, not_forall]
    constructor
    · rintro ⟨x, hx, hdir⟩
      exact ⟨x, hx, by simp [hdir]⟩
    · rintro ⟨x, hx, hdir⟩
      exact ⟨x, hx, by simpa using hdir⟩

/-! ## C8 -/

/-- C8: node expansion is idempotent — expanding an already-expanded node
leaves its children unchanged, so expanding twice (on an unchanged
filesystem) yields the identical node, hence the identical children
sequence, both times. -/
theorem C8_expand_idempotent (fs : FS) (n : TNode) :
    expandNode fs (expandNode fs n) = expandNode fs n := by
  obtain ⟨text, vals, children⟩ := n
  cases vals with
  | nil => rfl
  | cons p rest =>
    cases children with
    | nil => rfl
    | cons c cs =>
      cases cs with
      | cons c2 cs2 => rfl
      | nil =>
        by_cases hc : c.text = "Loading..."
        · simp only [expandNode, hc, if_pos]
          cases hpop : populate_tree fs p with
          | nil => rfl
          | cons a t =>
            cases t with
            | cons b u => rfl
            | nil =>
              by_cases ha : a.text = "Loading..."
              · simp [ha, ← hpop]
              · simp [ha]
        · simp [expandNode, hc]

/-! ## C9 -/

/-- C9: with the missing filter on, the produced labels are exactly, in
file-then-line order, the lines of the `.log` files that contain both a
"missing" and a "torrent" token case-insensitively, each labelled with the
fixed prefix plus the trimmed line text; and the three-line scenario keeps
exactly its 2nd and 3rd lines. -/
theorem C9_missing_lines_filter (fs : FS) (logs_dir : String)
    (entries : List String)
    (hex : fs.pathExists logs_dir = true)
    (hls : fs.listdir logs_dir = Except.ok entries) :
    (load_missing_torrents fs logs_dir).1 =
      (entries.filter (fun f => pyEndsWith f ".log")).flatMap (fun lf =>
        match fs.readFile (osJoin logs_dir lf) with
        | none => []
        | some content =>
          ((pySplitNl content).filter (fun line =>
              pyIn "missing" (pyLower line) && pyIn "torrent" (pyLower line))).map
            (fun line => "[MISSING] " ++ pyTrim line))
    ∧ update_files demoLogsFS "/logs" "/a" true =
      (["[MISSING] Missing Torrent: foo.mkv", "[MISSING] torrentmissingbar"],
       ["Missing Torrent: foo.mkv", "torrentmissingbar"]) := by
  refine ⟨?_, by decide⟩
  unfold load_missing_torrents
  rw [hex, if_neg (by simp : ¬(true : Bool) = false), hls]
  simp only []
  rw [missing_outer_foldl]
  simp only [List.nil_append]
  rw [List.map_flatMap]
  apply List.flatMap_congr
  intro lf _
  unfold fileMissingLines
  cases hr : fs.readFile (osJoin logs_dir lf) with
  | none => rfl
  | some content =>
    rw [List.map_map]
    rfl

/-- Witness for C9: the characterization applied to the concrete logs
directory. -/
theorem C9_witness :
    demoLogsFS.pathExists "/logs" = true ∧
      demoLogsFS.listdir "/logs" = Except.ok ["cross.log", "readme.txt"] ∧
      (load_missing_torrents demoLogsFS "/logs").1 =
        ((["cross.log", "readme.txt"] : List String).filter
            (fun f => pyEndsWith f ".log")).flatMap (fun lf =>
          match demoLogsFS.readFile (osJoin "/logs" lf) with
          | none => []
          | some content =>
            ((pySplitNl content).filter (fun line =>
                pyIn "missing" (pyLower line) && pyIn "torrent" (pyLower line))).map
              (fun line => "[MISSING] " ++ pyTrim line)) :=
  ⟨by decide, rfl,
    (C9_missing_lines_filter demoLogsFS "/logs" ["cross.log", "readme.txt"]
      (by decide) rfl).1⟩

/-! ## C10 -/

/-- The pair produced by `update_files` with the missing filter on always has
the shape `(x.map ("[MISSING] " ++ ·), x)`. -/
theorem update_files_shape_missing (fs : FS) (ld d : String) :
    ∃ x : List String, update_files fs ld d true =
      (x.map (fun missing => "[MISSING] " ++ missing), x) := by
  unfold update_files
  by_cases h : fs.pathExists d = false
  · exact ⟨[], by rw [if_pos h]; rfl⟩
  · rw [if_neg h, if_pos rfl]
    exact load_missing_shape fs ld

/-- The pair produced by `update_files` with the missing filter off always
has the shape `(y, y.map (osJoin d))`. -/
theorem update_files_shape_real (fs : FS) (ld d : String) :
    ∃ y : List String, update_files fs ld d false =
      (y, y.map (fun file => osJoin d file)) := by
  unfold update_files
  by_cases h : fs.pathExists d = false
  · exact ⟨[], by rw [if_pos h]; rfl⟩
  · rw [if_neg h, if_neg (by simp : ¬(false : Bool) = true)]
    cases hl : fs.listdir d with
    | error e => exact ⟨[], rfl⟩
    | ok entries => exact ⟨_, rfl⟩

/-- Resolving a non-negative in-range index returns the stored entry. -/
theorem get_selected_in_range (files : List String) (i : Nat) (v : String)
    (h : files.get? i = some v) :
    get_selected_file files [(i : Int)] = Except.ok (some v) := by
  have hlt : i < files.length := by
    by_contra hge
    rw [List.get?_eq_none.mpr (le_of_not_lt hge)] at h
    cases h
  rw [get_selected_file, if_pos (by exact_mod_cast hlt)]
  unfold pyGetItem
  rw [if_neg (not_lt.mpr (Int.natCast_nonneg i)),
    if_pos (Int.natCast_nonneg i), Int.toNat_natCast, h]
  rfl

/-- C10: after every refresh the label list and the resolved-path list have
equal length and are index-aligned (under the missing filter the label at
`i` is the fixed prefix plus the path at `i`; otherwise the path at `i` is
the directory joined with the label at `i`), and resolving any in-range
selection returns exactly the path stored at that position. -/
theorem C10_listing_alignment (fs : FS) (logs_dir d : String) (m : Bool) :
    (update_files fs logs_dir d m).1.length = (update_files fs logs_dir d m).2.length
    ∧ (m = true → ∀ i : Nat, (update_files fs logs_dir d m).1.get? i =
        ((update_files fs logs_dir d m).2.get? i).map (fun pth => "[MISSING] " ++ pth))
    ∧ (m = false → ∀ i : Nat, (update_files fs logs_dir d m).2.get? i =
        ((update_files fs logs_dir d m).1.get? i).map (fun file => osJoin d file))
    ∧ (∀ (i : Nat) (v : String), (update_files fs logs_dir d m).2.get? i = some v →
        get_selected_file (update_files fs logs_dir d m).2 [(i : Int)] =
          Except.ok (some v)) := by
  refine ⟨?_, ?_, ?_, fun i v h => get_selected_in_range _ i v h⟩
  · cases m with
    | true =>
      obtain ⟨x, hx⟩ := update_files_shape_missing fs logs_dir d
      rw [hx]
      simp
    | false =>
      obtain ⟨y, hy⟩ := update_files_shape_real fs logs_dir d
      rw [hy]
      simp
  · rintro rfl i
    obtain ⟨x, hx⟩ := update_files_shape_missing fs logs_dir d
    rw [hx]
    simp [List.get?_map]
  · rintro rfl i
    obtain ⟨y, hy⟩ := update_files_shape_real fs logs_dir d
    rw [hy]
    simp [List.get?_map]

/-- Witness for C10: alignment and in-range resolution at concrete
refreshes under both filter settings. -/
theorem C10_witness :
    (update_files demoLogsFS "/logs" "/a" true).1.get? 0 =
      ((update_files demoLogsFS "/logs" "/a" true).2.get? 0).map
        (fun pth => "[MISSING] " ++ pth)
    ∧ (update_files demoLogsFS "/logs" "/a" false).2.get? 0 =
      ((update_files demoLogsFS "/logs" "/a" false).1.get? 0).map
        (fun file => osJoin "/a" file)
    ∧ get_selected_file (update_files demoLogsFS "/logs" "/a" true).2
        [((0 : Nat) : Int)] = Except.ok (some "Missing Torrent: foo.mkv") :=
  ⟨(C10_listing_alignment demoLogsFS "/logs" "/a" true).2.1 rfl 0,
    (C10_listing_alignment demoLogsFS "/logs" "/a" false).2.2.1 rfl 0,
    (C10_listing_alignment demoLogsFS "/logs" "/a" true).2.2.2 0
      "Missing Torrent: foo.mkv" (by decide)⟩

end UAGui
